import Mathlib

/-! Contact-form backend (`server.js`): record lifecycle over `page_contacts`.

A shallow embedding of the four Express handlers of `src/server.js` and of the
SQL statements they issue, followed by theorems about the submit / list /
delete / clear contract.

Modelling conventions.

* The database is the pair (rows of `page_contacts`, the `sqlite_sequence`
  entry of `page_contacts`).  Rows are kept in rowid order, which is also the
  insertion order because `AUTOINCREMENT` only ever appends a larger rowid.
* Every `db.run` / `db.all` call may call back with `err`.  Whether it does is
  an input of the request (`Env.fault`), one answer per SQL statement.  A
  statement that fails leaves the database as it was (SQLite statements are
  atomic in autocommit mode).
* `new Date()` is an input of the request (`Env.now`), in milliseconds since
  the epoch.  The column `submitted_at` holds the `toISOString()` text of that
  instant; the model keeps the instant itself, since the fixed-width ISO text
  is ordered byte-wise exactly as the instants are.
* `WHERE id = ?` receives the path segment as text.  SQLite's conversion of
  that text to an integer for the comparison is not part of the repository, so
  it is a parameter (`aff`) of the delete handler.
-/

namespace Bonton

/-! ## Values and requests -/

/-- A JavaScript value as found in a parsed JSON body; `undefined` is what
destructuring yields for a key that is absent.  Numbers are integer-valued
(a fractional number is truthy like any non-zero integer; JSON has no NaN),
and the contents of arrays and objects are not inspected by the handler. -/
inductive JsVal
  | undefined
  | null
  | bool (b : Bool)
  | num (n : Int)
  | str (s : String)
  | arr
  | obj
deriving DecidableEq, Repr

/-- JavaScript truthiness, as used by `!fullName` on line 39. -/
def JsVal.truthy : JsVal → Bool
  | .undefined => false
  | .null => false
  | .bool b => b
  | .num n => n != 0
  | .str s => s != ""
  | .arr => true
  | .obj => true

/-- The parsed body `req.body` of `POST /submit-form`: the four keys the
handler destructures, and every other key the client sent (`rest`). -/
structure Body where
  fullName : JsVal
  email : JsVal
  subject : JsVal
  message : JsVal
  rest : List (String × JsVal)
deriving DecidableEq, Repr

/-- One row of `page_contacts` (lines 20-27).  The four text columns hold the
values the handler bound to the statement; `submitted_at` holds the instant
whose ISO-8601 text is stored. -/
structure ContactEntry where
  id : Nat
  name : JsVal
  email : JsVal
  subject : JsVal
  message : JsVal
  submitted_at : Nat
deriving DecidableEq, Repr

/-- The database: the rows of `page_contacts` in rowid order and the
`sqlite_sequence` entry of the table (`none` when there is no such entry). -/
structure Store where
  rows : List ContactEntry
  seq : Option Nat
deriving DecidableEq, Repr

/-- The database right after `CREATE TABLE IF NOT EXISTS` on a fresh file. -/
def Store.empty : Store := { rows := [], seq := none }

/-- The rowids present in the table. -/
def Store.ids (s : Store) : List Nat := s.rows.map (fun r => r.id)

/-- The SQL statements the handlers issue. -/
inductive Stmt
  | insert
  | selectAll
  | deleteById
  | deleteAll
  | resetSeq
deriving DecidableEq, Repr

/-- The `err` a statement's callback may receive. -/
inductive DbError
  | ioerr
  | busy
  | full
deriving DecidableEq, Repr

/-- What a request reads from outside the database: the clock (`new Date()`)
and, for each statement, whether the engine fails it. -/
structure Env where
  now : Nat
  fault : Stmt → Option DbError

/-- An environment in which no statement fails. -/
def Env.healthy (now : Nat) : Env := { now := now, fault := fun _ => none }

/-- Body of a JSON response. -/
inductive ResBody
  | message (m : String)
  | pageContacts (rows : List ContactEntry)
deriving DecidableEq, Repr

/-- The reply `res.status(..).json(..)`. -/
structure Response where
  status : Nat
  body : ResBody
deriving DecidableEq, Repr

/-- Result of handling one request: the database afterwards, the reply, the
statements issued to the database in order, and `this.lastID` of a successful
`INSERT` (the handler does not read it; it is recorded for the theorems). -/
structure Outcome where
  store : Store
  response : Response
  issued : List Stmt
  lastID : Option Nat
deriving DecidableEq, Repr

/-! ## The storage engine -/

/-- Largest rowid SQLite can assign. -/
def maxRowid : Nat := 9223372036854775807

/-- Largest rowid in the table, `0` for an empty table. -/
def tableMax (rows : List ContactEntry) : Nat :=
  rows.foldr (fun r m => max r.id m) 0

/-- The rowid `INTEGER PRIMARY KEY AUTOINCREMENT` picks: one more than the
larger of the table's largest rowid and the recorded sequence value, or
`SQLITE_FULL` once the largest rowid has been used. -/
def newRowid (s : Store) : Except DbError Nat :=
  if s.seq.getD 0 = maxRowid ∨ maxRowid ≤ tableMax s.rows then .error .full
  else .ok (max (tableMax s.rows + 1) (s.seq.getD 0 + 1))

/-- Statement `INSERT INTO page_contacts (name, email, subject, message,
submitted_at) VALUES (?, ?, ?, ?, ?)`: returns the database and the new rowid. -/
def runInsert (s : Store) (fault : Option DbError)
    (name email subject message : JsVal) (submitted_at : Nat) :
    Except DbError (Store × Nat) :=
  match fault with
  | some e => .error e
  | none =>
    match newRowid s with
    | .error e => .error e
    | .ok id =>
      .ok ({ rows := s.rows ++ [{ id := id, name := name, email := email,
                                  subject := subject, message := message,
                                  submitted_at := submitted_at }],
             seq := some id }, id)

/-- The clause `ORDER BY submitted_at DESC`; the order among equal timestamps
is the engine's choice, here the order of the scan. -/
def orderBySubmittedAtDesc (rows : List ContactEntry) : List ContactEntry :=
  rows.insertionSort (fun a b => b.submitted_at ≤ a.submitted_at)

/-- Statement `SELECT * FROM page_contacts ORDER BY submitted_at DESC`. -/
def runSelectAll (s : Store) (fault : Option DbError) :
    Except DbError (List ContactEntry) :=
  match fault with
  | some e => .error e
  | none => .ok (orderBySubmittedAtDesc s.rows)

/-- Whether the row satisfies `id = ?` for the bound text `p`, given the
engine's conversion `aff` of the text to an integer. -/
def idMatches (aff : String → Option Int) (p : String) (r : ContactEntry) : Bool :=
  aff p == some (r.id : Int)

/-- Statement `DELETE FROM page_contacts WHERE id = ?`: returns the database
and the number of rows changed (`this.changes`). -/
def runDeleteById (aff : String → Option Int) (s : Store) (fault : Option DbError)
    (p : String) : Except DbError (Store × Nat) :=
  match fault with
  | some e => .error e
  | none =>
    .ok ({ rows := s.rows.filter (fun r => !idMatches aff p r), seq := s.seq },
         (s.rows.filter (fun r => idMatches aff p r)).length)

/-- Statement `DELETE FROM page_contacts`. -/
def runDeleteAll (s : Store) (fault : Option DbError) : Except DbError Store :=
  match fault with
  | some e => .error e
  | none => .ok { rows := [], seq := s.seq }

/-- Statement `DELETE FROM sqlite_sequence WHERE name = 'page_contacts'`. -/
def runResetSeq (s : Store) (fault : Option DbError) : Except DbError Store :=
  match fault with
  | some e => .error e
  | none => .ok { rows := s.rows, seq := none }

/-! ## The handlers -/

/-- Handler `app.post("/submit-form")`, lines 33-54. -/
def submitForm (s : Store) (env : Env) (body : Body) : Outcome :=
  let submitted_at := env.now
  if !body.fullName.truthy || !body.email.truthy || !body.subject.truthy
      || !body.message.truthy then
    { store := s, response := ⟨400, .message "Missing required fields."⟩,
      issued := [], lastID := none }
  else
    match runInsert s (env.fault .insert) body.fullName body.email body.subject
        body.message submitted_at with
    | .error _ =>
      { store := s, response := ⟨500, .message "Error saving your message."⟩,
        issued := [.insert], lastID := none }
    | .ok (s', id) =>
      { store := s',
        response := ⟨200, .message "Thank you! Your message has been received."⟩,
        issued := [.insert], lastID := some id }

/-- Handler `app.get("/get-contacts")`, lines 57-71. -/
def getContacts (s : Store) (env : Env) : Outcome :=
  match runSelectAll s (env.fault .selectAll) with
  | .error _ =>
    { store := s, response := ⟨500, .message "Error retrieving contacts."⟩,
      issued := [.selectAll], lastID := none }
  | .ok pageRows =>
    { store := s, response := ⟨200, .pageContacts pageRows⟩,
      issued := [.selectAll], lastID := none }

/-- Handler `app.delete('/delete-contact/:id')`, lines 74-91. -/
def deleteContact (aff : String → Option Int) (s : Store) (env : Env)
    (id : String) : Outcome :=
  match runDeleteById aff s (env.fault .deleteById) id with
  | .error _ =>
    { store := s, response := ⟨500, .message "Error deleting the entry."⟩,
      issued := [.deleteById], lastID := none }
  | .ok (s', changes) =>
    if changes = 0 then
      { store := s', response := ⟨404, .message "Entry not found."⟩,
        issued := [.deleteById], lastID := none }
    else
      { store := s', response := ⟨200, .message "Entry deleted successfully."⟩,
        issued := [.deleteById], lastID := none }

/-- Handler `app.delete('/clear-table')`, lines 94-118: the second statement
is issued from the callback of the first, only when the first succeeded. -/
def clearTable (s : Store) (env : Env) : Outcome :=
  match runDeleteAll s (env.fault .deleteAll) with
  | .error _ =>
    { store := s, response := ⟨500, .message "Error clearing the table."⟩,
      issued := [.deleteAll], lastID := none }
  | .ok s1 =>
    match runResetSeq s1 (env.fault .resetSeq) with
    | .error _ =>
      { store := s1, response := ⟨500, .message "Error resetting the table ID."⟩,
        issued := [.deleteAll, .resetSeq], lastID := none }
    | .ok s2 =>
      { store := s2,
        response := ⟨200, .message "All entries from page_contacts cleared successfully."⟩,
        issued := [.deleteAll, .resetSeq], lastID := none }

/-! ## Sequences of requests -/

/-- A request to one of the four routes. -/
inductive Request
  | submit (body : Body)
  | getContacts
  | deleteContact (id : String)
  | clearTable
deriving DecidableEq, Repr

/-- Route dispatch. -/
def handle (aff : String → Option Int) (s : Store) (env : Env) : Request → Outcome
  | .submit body => submitForm s env body
  | .getContacts => getContacts s env
  | .deleteContact id => deleteContact aff s env id
  | .clearTable => clearTable s env

/-- The database after a sequence of requests, each with its environment. -/
def run (aff : String → Option Int) (s : Store) : List (Env × Request) → Store
  | [] => s
  | x :: rest => run aff (handle aff s x.1 x.2).store rest

/-- The rowids handed out by the successful inserts of a sequence of requests,
in the order they were handed out. -/
def assigned (aff : String → Option Int) (s : Store) : List (Env × Request) → List Nat
  | [] => []
  | x :: rest =>
    (handle aff s x.1 x.2).lastID.toList ++ assigned aff (handle aff s x.1 x.2).store rest

/-- The replies of a sequence of submits. -/
def submitAll (s : Store) : List (Env × Body) → Store × List Response
  | [] => (s, [])
  | x :: rest =>
    let o := submitForm s x.1 x.2
    let r := submitAll o.store rest
    (r.1, o.response :: r.2)

/-! ## A concrete conversion for path segments -/

/-- Value of a string of decimal digits, `none` if another character occurs. -/
def digitsValue : List Char → Nat → Option Nat
  | [], acc => some acc
  | c :: cs, acc =>
    if c.isDigit then digitsValue cs (10 * acc + (c.toNat - 48)) else none

/-- The integer-literal case of SQLite's text-to-integer conversion: an
optional sign followed by one or more decimal digits. -/
def integerLiteral (p : String) : Option Int :=
  match p.data with
  | [] => none
  | '-' :: c :: cs => (digitsValue (c :: cs) 0).map (fun n => - (n : Int))
  | '+' :: c :: cs => (digitsValue (c :: cs) 0).map (fun n => (n : Int))
  | cs => (digitsValue cs 0).map (fun n => (n : Int))

/-- A field that is absent from the body or is the empty string. -/
def missingOrEmpty (v : JsVal) : Prop := v = .undefined ∨ v = .str ""

/-! ## Sample data -/

/-- The body of the spec's scenario. -/
def aliceBody : Body :=
  { fullName := .str "Alice", email := .str "a@x.com", subject := .str "Hi",
    message := .str "Test", rest := [] }

/-- A stored entry for Alice with rowid 1. -/
def aliceRow : ContactEntry :=
  { id := 1, name := .str "Alice", email := .str "a@x.com", subject := .str "Hi",
    message := .str "Test", submitted_at := 1000 }

/-- A database holding only Alice's entry. -/
def aliceStore : Store := { rows := [aliceRow], seq := some 1 }

/-- An environment in which exactly the statement `st` fails. -/
def Env.failing (now : Nat) (st : Stmt) : Env :=
  { now := now, fault := fun x => if x = st then some .ioerr else none }

/-- Submit, delete the entry, submit again, list. -/
def sampleTrace : List (Env × Request) :=
  [(Env.healthy 1000, .submit aliceBody),
   (Env.healthy 1500, .deleteContact "1"),
   (Env.healthy 2000, .submit aliceBody),
   (Env.healthy 2500, .getContacts)]

/-- Two submits in one millisecond, a clear whose reset step fails, a delete
of a missing id, and two more submits. -/
def sampleTraceWithClear : List (Env × Request) :=
  [(Env.healthy 1000, .submit aliceBody),
   (Env.healthy 1000, .submit aliceBody),
   (Env.failing 1200 .resetSeq, .clearTable),
   (Env.healthy 1300, .deleteContact "7"),
   (Env.healthy 2000, .submit aliceBody),
   (Env.healthy 2000, .submit aliceBody)]

/-- The ordering invariant of the table: along the stored order ids strictly
increase and timestamps do not decrease. -/
def RowOrder (a b : ContactEntry) : Prop :=
  a.id < b.id ∧ a.submitted_at ≤ b.submitted_at

end Bonton

namespace Bonton

/-! ## Facts about the storage engine -/

theorem le_tableMax {rows : List ContactEntry} {r : ContactEntry} (h : r ∈ rows) :
    r.id ≤ tableMax rows := by
  induction rows with
  | nil => cases h
  | cons a l ih =>
    rcases List.mem_cons.mp h with rfl | h'
    · simp [tableMax]
    · have := ih h'
      simp only [tableMax, List.foldr_cons] at this ⊢
      omega

theorem newRowid_ok {s : Store} {id : Nat} (h : newRowid s = .ok id) :
    id = max (tableMax s.rows + 1) (s.seq.getD 0 + 1) ∧ s.seq.getD 0 < id ∧
      tableMax s.rows < id := by
  unfold newRowid at h
  split at h
  · cases h
  · rename_i hn
    injection h with h
    subst h
    refine ⟨rfl, ?_, ?_⟩ <;> omega

theorem newRowid_fresh {s : Store} {id : Nat} (h : newRowid s = .ok id)
    {r : ContactEntry} (hr : r ∈ s.rows) : r.id < id :=
  lt_of_le_of_lt (le_tableMax hr) (newRowid_ok h).2.2

theorem runInsert_ok {s : Store} {fault : Option DbError} {n e sj m : JsVal} {t : Nat}
    {r : Store × Nat} (h : runInsert s fault n e sj m t = .ok r) :
    fault = none ∧ newRowid s = .ok r.2 ∧
      r.1 = { rows := s.rows ++ [{ id := r.2, name := n, email := e, subject := sj,
                                   message := m, submitted_at := t }],
              seq := some r.2 } := by
  unfold runInsert at h
  cases fault with
  | some err => cases h
  | none =>
    simp only at h
    cases hid : newRowid s with
    | error err => rw [hid] at h; cases h
    | ok id =>
      rw [hid] at h
      injection h with h
      subst h
      exact ⟨rfl, rfl, rfl⟩

theorem perm_orderBySubmittedAtDesc (rows : List ContactEntry) :
    (orderBySubmittedAtDesc rows).Perm rows :=
  List.perm_insertionSort _ rows

theorem sorted_orderBySubmittedAtDesc (rows : List ContactEntry) :
    (orderBySubmittedAtDesc rows).Pairwise (fun a b => b.submitted_at ≤ a.submitted_at) := by
  have hT : IsTotal ContactEntry (fun a b => b.submitted_at ≤ a.submitted_at) :=
    ⟨fun a b => Nat.le_total b.submitted_at a.submitted_at⟩
  have hTr : IsTrans ContactEntry (fun a b => b.submitted_at ≤ a.submitted_at) :=
    ⟨fun _ _ _ h1 h2 => Nat.le_trans h2 h1⟩
  exact List.sorted_insertionSort (fun a b : ContactEntry => b.submitted_at ≤ a.submitted_at) rows

/-! ## The submit handler -/

theorem submitForm_of_falsy (s : Store) (env : Env) (body : Body)
    (h : body.fullName.truthy = false ∨ body.email.truthy = false ∨
      body.subject.truthy = false ∨ body.message.truthy = false) :
    submitForm s env body =
      { store := s, response := ⟨400, .message "Missing required fields."⟩,
        issued := [], lastID := none } := by
  unfold submitForm
  rcases h with h | h | h | h <;> simp [h]

theorem truthy_of_missingOrEmpty {v : JsVal} (h : missingOrEmpty v) : v.truthy = false := by
  rcases h with rfl | rfl <;> rfl

/-- C1: a submit in which one of the four fields is absent or the empty string
is answered 400 "Missing required fields.", issues no statement to the
database, and leaves rows and id counter as they were, so a following list
gives the same reply as before. -/
theorem submit_missing_field_rejected (s : Store) (env : Env) (body : Body)
    (h : missingOrEmpty body.fullName ∨ missingOrEmpty body.email ∨
      missingOrEmpty body.subject ∨ missingOrEmpty body.message) :
    (submitForm s env body).response = ⟨400, .message "Missing required fields."⟩ ∧
    (submitForm s env body).issued = [] ∧
    (submitForm s env body).store.rows = s.rows ∧
    (submitForm s env body).store.seq = s.seq ∧
    ∀ env2 : Env, getContacts (submitForm s env body).store env2 = getContacts s env2 := by
  have hf : body.fullName.truthy = false ∨ body.email.truthy = false ∨
      body.subject.truthy = false ∨ body.message.truthy = false := by
    rcases h with h | h | h | h
    · exact Or.inl (truthy_of_missingOrEmpty h)
    · exact Or.inr (Or.inl (truthy_of_missingOrEmpty h))
    · exact Or.inr (Or.inr (Or.inl (truthy_of_missingOrEmpty h)))
    · exact Or.inr (Or.inr (Or.inr (truthy_of_missingOrEmpty h)))
  rw [submitForm_of_falsy s env body hf]
  exact ⟨rfl, rfl, rfl, rfl, fun _ => rfl⟩

theorem submit_missing_field_rejected_witness :
    (submitForm aliceStore (Env.healthy 2000)
        { aliceBody with email := .str "" }).response
      = ⟨400, .message "Missing required fields."⟩ ∧
    (submitForm aliceStore (Env.healthy 2000) { aliceBody with email := .str "" }).issued = [] ∧
    (submitForm aliceStore (Env.healthy 2000)
        { aliceBody with email := .str "" }).store.rows = aliceStore.rows ∧
    (submitForm aliceStore (Env.healthy 2000)
        { aliceBody with email := .str "" }).store.seq = aliceStore.seq ∧
    ∀ env2 : Env,
      getContacts (submitForm aliceStore (Env.healthy 2000)
        { aliceBody with email := .str "" }).store env2 = getContacts aliceStore env2 :=
  submit_missing_field_rejected aliceStore (Env.healthy 2000) { aliceBody with email := .str "" }
    (Or.inr (Or.inl (Or.inr rfl)))

theorem submitForm_of_ok (s : Store) (env : Env) (body : Body)
    (ht : body.fullName.truthy = true ∧ body.email.truthy = true ∧
      body.subject.truthy = true ∧ body.message.truthy = true)
    {r : Store × Nat}
    (h : runInsert s (env.fault .insert) body.fullName body.email body.subject
      body.message env.now = .ok r) :
    submitForm s env body =
      { store := r.1,
        response := ⟨200, .message "Thank you! Your message has been received."⟩,
        issued := [.insert], lastID := some r.2 } := by
  unfold submitForm
  simp [ht.1, ht.2.1, ht.2.2.1, ht.2.2.2, h]

theorem submitForm_of_error (s : Store) (env : Env) (body : Body)
    (ht : body.fullName.truthy = true ∧ body.email.truthy = true ∧
      body.subject.truthy = true ∧ body.message.truthy = true)
    {err : DbError}
    (h : runInsert s (env.fault .insert) body.fullName body.email body.subject
      body.message env.now = .error err) :
    submitForm s env body =
      { store := s, response := ⟨500, .message "Error saving your message."⟩,
        issued := [.insert], lastID := none } := by
  unfold submitForm
  simp [ht.1, ht.2.1, ht.2.2.1, ht.2.2.2, h]

/-- The three ways a submit can end. -/
theorem submitForm_cases (s : Store) (env : Env) (body : Body) :
    (submitForm s env body =
      { store := s, response := ⟨400, .message "Missing required fields."⟩,
        issued := [], lastID := none }) ∨
    (submitForm s env body =
      { store := s, response := ⟨500, .message "Error saving your message."⟩,
        issued := [.insert], lastID := none }) ∨
    (∃ id, newRowid s = .ok id ∧ env.fault .insert = none ∧
      submitForm s env body =
        { store := { rows := s.rows ++ [{ id := id, name := body.fullName,
                                          email := body.email, subject := body.subject,
                                          message := body.message,
                                          submitted_at := env.now }],
                     seq := some id },
          response := ⟨200, .message "Thank you! Your message has been received."⟩,
          issued := [.insert], lastID := some id }) := by
  by_cases hf : body.fullName.truthy = false ∨ body.email.truthy = false ∨
      body.subject.truthy = false ∨ body.message.truthy = false
  · exact Or.inl (submitForm_of_falsy s env body hf)
  · have ht : body.fullName.truthy = true ∧ body.email.truthy = true ∧
        body.subject.truthy = true ∧ body.message.truthy = true := by
      simp only [not_or, Bool.not_eq_false] at hf
      exact hf
    cases hr : runInsert s (env.fault .insert) body.fullName body.email body.subject
        body.message env.now with
    | error err => exact Or.inr (Or.inl (submitForm_of_error s env body ht hr))
    | ok r =>
      obtain ⟨h1, h2, h3⟩ := runInsert_ok hr
      refine Or.inr (Or.inr ⟨r.2, h2, h1, ?_⟩)
      rw [submitForm_of_ok s env body ht hr, h3]

theorem getContacts_of_ok (s : Store) (env : Env) (h : env.fault .selectAll = none) :
    getContacts s env =
      { store := s, response := ⟨200, .pageContacts (orderBySubmittedAtDesc s.rows)⟩,
        issued := [.selectAll], lastID := none } := by
  simp [getContacts, runSelectAll, h]

/-- C2: a submit whose four fields are non-empty strings and whose insert does
not fail is answered 200 "Thank you! Your message has been received."; the
table is the previous rows followed by one new row whose name is the submitted
fullName, whose email, subject and message are the submitted values, whose id
is the rowid the engine picked (larger than every id in the table) and whose
submitted_at is the instant the server read during the request, whatever else
the body carries; a following list returns the previous listing plus that
row. -/
theorem submit_valid_stores_entry (s : Store) (env : Env) (body : Body)
    (fn em sj ms : String)
    (hfn : body.fullName = .str fn) (hem : body.email = .str em)
    (hsj : body.subject = .str sj) (hms : body.message = .str ms)
    (hne : fn ≠ "" ∧ em ≠ "" ∧ sj ≠ "" ∧ ms ≠ "")
    (hins : ∃ r, runInsert s (env.fault .insert) body.fullName body.email body.subject
      body.message env.now = .ok r) :
    (submitForm s env body).response
      = ⟨200, .message "Thank you! Your message has been received."⟩ ∧
    ∃ e : ContactEntry,
      (submitForm s env body).store.rows = s.rows ++ [e] ∧
      e.name = .str fn ∧ e.email = .str em ∧ e.subject = .str sj ∧ e.message = .str ms ∧
      e.submitted_at = env.now ∧
      newRowid s = .ok e.id ∧ (submitForm s env body).lastID = some e.id ∧
      (submitForm s env body).store.seq = some e.id ∧
      (∀ r ∈ s.rows, r.id < e.id) ∧
      ∀ env2 : Env, env2.fault .selectAll = none →
        ∃ L, (getContacts (submitForm s env body).store env2).response
            = ⟨200, .pageContacts L⟩ ∧
          L.Perm (e :: orderBySubmittedAtDesc s.rows) := by
  obtain ⟨r, hr⟩ := hins
  have ht : body.fullName.truthy = true ∧ body.email.truthy = true ∧
      body.subject.truthy = true ∧ body.message.truthy = true := by
    rw [hfn, hem, hsj, hms]
    simp [JsVal.truthy, hne.1, hne.2.1, hne.2.2.1, hne.2.2.2]
  obtain ⟨_, h2, h3⟩ := runInsert_ok hr
  rw [submitForm_of_ok s env body ht hr, h3]
  refine ⟨rfl, ⟨r.2, body.fullName, body.email, body.subject, body.message, env.now⟩,
    rfl, hfn, hem, hsj, hms, rfl, h2, rfl, rfl, fun x hx => newRowid_fresh h2 hx, ?_⟩
  intro env2 h2f
  refine ⟨_, by rw [getContacts_of_ok _ _ h2f], ?_⟩
  refine (perm_orderBySubmittedAtDesc _).trans ?_
  refine List.perm_append_comm.trans ?_
  exact List.Perm.cons _ (perm_orderBySubmittedAtDesc s.rows).symm

theorem submit_valid_stores_entry_witness :
    (submitForm Store.empty (Env.healthy 1000) aliceBody).response
      = ⟨200, .message "Thank you! Your message has been received."⟩ ∧
    ∃ e : ContactEntry,
      (submitForm Store.empty (Env.healthy 1000) aliceBody).store.rows
        = Store.empty.rows ++ [e] ∧
      e.name = .str "Alice" ∧ e.email = .str "a@x.com" ∧ e.subject = .str "Hi" ∧
      e.message = .str "Test" ∧
      e.submitted_at = (Env.healthy 1000).now ∧
      newRowid Store.empty = .ok e.id ∧
      (submitForm Store.empty (Env.healthy 1000) aliceBody).lastID = some e.id ∧
      (submitForm Store.empty (Env.healthy 1000) aliceBody).store.seq = some e.id ∧
      (∀ r ∈ Store.empty.rows, r.id < e.id) ∧
      ∀ env2 : Env, env2.fault .selectAll = none →
        ∃ L, (getContacts (submitForm Store.empty (Env.healthy 1000) aliceBody).store
              env2).response = ⟨200, .pageContacts L⟩ ∧
          L.Perm (e :: orderBySubmittedAtDesc Store.empty.rows) :=
  submit_valid_stores_entry Store.empty (Env.healthy 1000) aliceBody "Alice" "a@x.com" "Hi"
    "Test" rfl rfl rfl rfl (by decide) ⟨(_, 1), rfl⟩

/-! ## The list handler -/

theorem getContacts_of_fault (s : Store) (env : Env) (h : env.fault .selectAll ≠ none) :
    getContacts s env =
      { store := s, response := ⟨500, .message "Error retrieving contacts."⟩,
        issued := [.selectAll], lastID := none } := by
  cases hf : env.fault .selectAll with
  | none => exact absurd hf h
  | some err => simp [getContacts, runSelectAll, hf]

theorem submitAll_length (s : Store) (subs : List (Env × Body))
    (hok : ∀ resp ∈ (submitAll s subs).2, resp.status = 200) :
    (submitAll s subs).1.rows.length = s.rows.length + subs.length := by
  induction subs generalizing s with
  | nil => simp [submitAll]
  | cons x rest ih =>
    simp only [submitAll, List.mem_cons, forall_eq_or_imp] at hok ⊢
    obtain ⟨hx, hrest⟩ := hok
    rw [ih _ hrest]
    rcases submitForm_cases s x.1 x.2 with h | h | ⟨id, _, _, h⟩
    · rw [h] at hx; simp at hx
    · rw [h] at hx; simp at hx
    · rw [h]; simp; omega

/-- C3 (amended): after N successful submits on an empty table, a list whose
query does not fail is answered 200 with exactly the N stored entries, each
submitted_at greater than or equal to that of the entry after it, and with the
empty sequence when N = 0; a list whose query fails is answered 500 "Error
retrieving contacts.". -/
theorem list_after_submits (s : Store) (subs : List (Env × Body)) (env : Env)
    (hs : s.rows = [])
    (hok : ∀ resp ∈ (submitAll s subs).2, resp.status = 200) :
    (env.fault .selectAll = none →
      ∃ L, (getContacts (submitAll s subs).1 env).response = ⟨200, .pageContacts L⟩ ∧
        L.length = subs.length ∧
        L.Pairwise (fun a b => b.submitted_at ≤ a.submitted_at) ∧
        L.Perm (submitAll s subs).1.rows ∧
        (subs = [] → L = [])) ∧
    (env.fault .selectAll ≠ none →
      (getContacts (submitAll s subs).1 env).response
        = ⟨500, .message "Error retrieving contacts."⟩) := by
  constructor
  · intro hf
    have hlen := submitAll_length s subs hok
    rw [hs] at hlen
    have hperm := perm_orderBySubmittedAtDesc (submitAll s subs).1.rows
    refine ⟨orderBySubmittedAtDesc (submitAll s subs).1.rows,
      by rw [getContacts_of_ok _ _ hf], ?_, sorted_orderBySubmittedAtDesc _, hperm, ?_⟩
    · rw [hperm.length_eq, hlen]; simp
    · intro he
      apply List.eq_nil_of_length_eq_zero
      rw [hperm.length_eq, hlen, he]; rfl
  · intro hf
    rw [getContacts_of_fault _ _ hf]

theorem list_after_submits_witness :
    ((Env.healthy 3000).fault .selectAll = none →
      ∃ L, (getContacts (submitAll Store.empty
              [(Env.healthy 1000, aliceBody), (Env.healthy 2000, aliceBody)]).1
            (Env.healthy 3000)).response = ⟨200, .pageContacts L⟩ ∧
        L.length = [(Env.healthy 1000, aliceBody), (Env.healthy 2000, aliceBody)].length ∧
        L.Pairwise (fun a b => b.submitted_at ≤ a.submitted_at) ∧
        L.Perm (submitAll Store.empty
          [(Env.healthy 1000, aliceBody), (Env.healthy 2000, aliceBody)]).1.rows ∧
        ([(Env.healthy 1000, aliceBody), (Env.healthy 2000, aliceBody)] = [] → L = [])) ∧
    ((Env.healthy 3000).fault .selectAll ≠ none →
      (getContacts (submitAll Store.empty
          [(Env.healthy 1000, aliceBody), (Env.healthy 2000, aliceBody)]).1
        (Env.healthy 3000)).response = ⟨500, .message "Error retrieving contacts."⟩) :=
  list_after_submits Store.empty [(Env.healthy 1000, aliceBody), (Env.healthy 2000, aliceBody)]
    (Env.healthy 3000) rfl (by decide)

/-- C3, as stated, fails: one successful submit on the empty table, then a
list whose query the engine fails, is answered 500 and not 200. -/
theorem list_after_submits_counterexample :
    (submitAll Store.empty [(Env.healthy 1000, aliceBody)]).2
      = [⟨200, .message "Thank you! Your message has been received."⟩] ∧
    (getContacts (submitAll Store.empty [(Env.healthy 1000, aliceBody)]).1
        (Env.failing 2000 .selectAll)).response
      = ⟨500, .message "Error retrieving contacts."⟩ := by
  decide

/-! ## The delete handler -/

theorem idMatches_of_eq {aff : String → Option Int} {p : String} {id : Nat}
    (hp : aff p = some (id : Int)) (r : ContactEntry) :
    idMatches aff p r = decide (r.id = id) := by
  unfold idMatches
  rw [hp]
  by_cases h : r.id = id
  · simp [h]
  · have h2 : ¬ ((id : Int) = (r.id : Int)) := fun e => h (Int.ofNat.inj e).symm
    simp [h, h2]

theorem deleteContact_of_fault (aff : String → Option Int) (s : Store) (env : Env)
    (p : String) (h : env.fault .deleteById ≠ none) :
    deleteContact aff s env p =
      { store := s, response := ⟨500, .message "Error deleting the entry."⟩,
        issued := [.deleteById], lastID := none } := by
  cases hf : env.fault .deleteById with
  | none => exact absurd hf h
  | some err => simp [deleteContact, runDeleteById, hf]

theorem deleteContact_of_ok (aff : String → Option Int) (s : Store) (env : Env)
    (p : String) (h : env.fault .deleteById = none) :
    deleteContact aff s env p =
      { store := { rows := s.rows.filter (fun r => !idMatches aff p r), seq := s.seq },
        response := if (s.rows.filter (fun r => idMatches aff p r)).length = 0
          then ⟨404, .message "Entry not found."⟩
          else ⟨200, .message "Entry deleted successfully."⟩,
        issued := [.deleteById], lastID := none } := by
  simp only [deleteContact, runDeleteById, h]
  split <;> rfl

theorem length_filter_ne_id (rows : List ContactEntry) (id : Nat)
    (hnd : (rows.map (fun r => r.id)).Nodup) (hmem : id ∈ rows.map (fun r => r.id)) :
    (rows.filter (fun r => !decide (r.id = id))).length + 1 = rows.length := by
  induction rows with
  | nil => simp at hmem
  | cons a l ih =>
    rw [List.map_cons, List.nodup_cons] at hnd
    by_cases ha : a.id = id
    · have hall : ∀ r ∈ l, (!decide (r.id = id)) = true := by
        intro r hr
        have : r.id ≠ id := by
          intro e
          apply hnd.1
          rw [ha, ← e]
          exact List.mem_map_of_mem _ hr
        simp [this]
      simp [List.filter_cons, ha, List.filter_eq_self.mpr hall]
    · have hmem2 : id ∈ l.map (fun r => r.id) := by
        rcases List.mem_cons.mp hmem with h | h
        · exact absurd h.symm ha
        · exact h
      have := ih hnd.2 hmem2
      simp [List.filter_cons, ha]
      omega

theorem filter_matches_ne_nil {rows : List ContactEntry} {id : Nat}
    (hmem : id ∈ rows.map (fun r => r.id)) :
    (rows.filter (fun r => decide (r.id = id))).length ≠ 0 := by
  obtain ⟨r, hr, hid⟩ := List.mem_map.mp hmem
  have : r ∈ rows.filter (fun r => decide (r.id = id)) := by
    simp [List.mem_filter, hr, hid]
  intro h0
  rw [List.length_eq_zero] at h0
  rw [h0] at this
  cases this

/-- C4 (amended): when a surviving entry carries the id named by the path
segment and the delete statement does not fail, the reply is 200 "Entry
deleted successfully." and exactly that entry is removed: one row fewer, none
with that id, every other row still there with its fields unchanged (rows are
only dropped, never rewritten), the id counter untouched, and a following list
shows the same; when the statement fails, the reply is 500 "Error deleting the
entry." and the table is unchanged. -/
theorem delete_existing_removes_exactly (aff : String → Option Int) (s : Store)
    (env : Env) (p : String) (id : Nat)
    (hp : aff p = some (id : Int)) (hmem : id ∈ s.ids) (hnd : s.ids.Nodup) :
    (env.fault .deleteById = none →
      (deleteContact aff s env p).response
        = ⟨200, .message "Entry deleted successfully."⟩ ∧
      (deleteContact aff s env p).store.rows
        = s.rows.filter (fun r => !decide (r.id = id)) ∧
      (deleteContact aff s env p).store.seq = s.seq ∧
      (deleteContact aff s env p).store.rows.length + 1 = s.rows.length ∧
      id ∉ (deleteContact aff s env p).store.ids ∧
      (∀ r ∈ s.rows, r.id ≠ id → r ∈ (deleteContact aff s env p).store.rows) ∧
      (∀ r ∈ (deleteContact aff s env p).store.rows, r ∈ s.rows) ∧
      ∀ env2 : Env, env2.fault .selectAll = none →
        ∃ L, (getContacts (deleteContact aff s env p).store env2).response
            = ⟨200, .pageContacts L⟩ ∧
          L.length + 1 = s.rows.length ∧ (∀ r ∈ L, r.id ≠ id) ∧
          ∀ r ∈ s.rows, r.id ≠ id → r ∈ L) ∧
    (env.fault .deleteById ≠ none →
      (deleteContact aff s env p).response = ⟨500, .message "Error deleting the entry."⟩ ∧
      (deleteContact aff s env p).store = s) := by
  constructor
  · intro hf
    have hfun : (fun r => idMatches aff p r) = (fun r : ContactEntry => decide (r.id = id)) :=
      funext (idMatches_of_eq hp)
    have hfun2 : (fun r => !idMatches aff p r)
        = (fun r : ContactEntry => !decide (r.id = id)) :=
      funext (fun r => by rw [idMatches_of_eq hp])
    have hlen := length_filter_ne_id s.rows id hnd hmem
    have hkeep : ∀ r ∈ s.rows, r.id ≠ id →
        r ∈ s.rows.filter (fun r => !decide (r.id = id)) := by
      intro r hr hne
      simp [List.mem_filter, hr, hne]
    have hgone : ∀ r ∈ s.rows.filter (fun r => !decide (r.id = id)), r.id ≠ id := by
      intro r hr
      simpa using (List.mem_filter.mp hr).2
    rw [deleteContact_of_ok aff s env p hf, hfun, hfun2, if_neg (filter_matches_ne_nil hmem)]
    refine ⟨rfl, rfl, rfl, hlen, ?_, hkeep, fun r hr => (List.mem_filter.mp hr).1, ?_⟩
    · intro hin
      obtain ⟨r, hr, hid⟩ := List.mem_map.mp hin
      exact hgone r hr hid
    · intro env2 h2
      have hperm := perm_orderBySubmittedAtDesc (s.rows.filter (fun r => !decide (r.id = id)))
      refine ⟨_, by rw [getContacts_of_ok _ _ h2], ?_, ?_, ?_⟩
      · rw [hperm.length_eq]; exact hlen
      · intro r hr; exact hgone r (hperm.mem_iff.mp hr)
      · intro r hr hne; exact hperm.mem_iff.mpr (hkeep r hr hne)
  · intro hf
    rw [deleteContact_of_fault aff s env p hf]
    exact ⟨rfl, rfl⟩

theorem delete_existing_removes_exactly_witness :
    ((Env.healthy 5000).fault .deleteById = none →
      (deleteContact integerLiteral aliceStore (Env.healthy 5000) "1").response
        = ⟨200, .message "Entry deleted successfully."⟩ ∧
      (deleteContact integerLiteral aliceStore (Env.healthy 5000) "1").store.rows
        = aliceStore.rows.filter (fun r => !decide (r.id = 1)) ∧
      (deleteContact integerLiteral aliceStore (Env.healthy 5000) "1").store.seq
        = aliceStore.seq ∧
      (deleteContact integerLiteral aliceStore (Env.healthy 5000) "1").store.rows.length + 1
        = aliceStore.rows.length ∧
      1 ∉ (deleteContact integerLiteral aliceStore (Env.healthy 5000) "1").store.ids ∧
      (∀ r ∈ aliceStore.rows, r.id ≠ 1 →
        r ∈ (deleteContact integerLiteral aliceStore (Env.healthy 5000) "1").store.rows) ∧
      (∀ r ∈ (deleteContact integerLiteral aliceStore (Env.healthy 5000) "1").store.rows,
        r ∈ aliceStore.rows) ∧
      ∀ env2 : Env, env2.fault .selectAll = none →
        ∃ L, (getContacts (deleteContact integerLiteral aliceStore (Env.healthy 5000)
              "1").store env2).response = ⟨200, .pageContacts L⟩ ∧
          L.length + 1 = aliceStore.rows.length ∧ (∀ r ∈ L, r.id ≠ 1) ∧
          ∀ r ∈ aliceStore.rows, r.id ≠ 1 → r ∈ L) ∧
    ((Env.healthy 5000).fault .deleteById ≠ none →
      (deleteContact integerLiteral aliceStore (Env.healthy 5000) "1").response
        = ⟨500, .message "Error deleting the entry."⟩ ∧
      (deleteContact integerLiteral aliceStore (Env.healthy 5000) "1").store = aliceStore) :=
  delete_existing_removes_exactly integerLiteral aliceStore (Env.healthy 5000) "1" 1
    (by decide) (by decide) (by decide)

/-- C4, as stated, fails: Alice's entry has id 1 and the path segment is "1",
yet when the engine fails the delete statement the reply is 500 and the entry
is still there. -/
theorem delete_existing_counterexample :
    1 ∈ aliceStore.ids ∧
    (deleteContact integerLiteral aliceStore (Env.failing 5000 .deleteById) "1").response
      = ⟨500, .message "Error deleting the entry."⟩ ∧
    (deleteContact integerLiteral aliceStore (Env.failing 5000 .deleteById) "1").store
      = aliceStore := by
  decide

/-- C5 (amended): the reply is 404 "Entry not found." exactly when the delete
statement does not fail and no surviving entry has the id named by the path
segment (zero rows changed), and then rows and id counter are unchanged; id
999999 on the empty table gives 404 when the statement does not fail.  When
the statement fails the reply is 500 "Error deleting the entry.", also when no
entry has that id. -/
theorem delete_missing_not_found (aff : String → Option Int) (s : Store) (env : Env)
    (p : String) :
    ((deleteContact aff s env p).response = ⟨404, .message "Entry not found."⟩ ↔
      (env.fault .deleteById = none ∧ ∀ r ∈ s.rows, aff p ≠ some (r.id : Int))) ∧
    ((deleteContact aff s env p).response.status = 404 →
      (deleteContact aff s env p).response = ⟨404, .message "Entry not found."⟩ ∧
      (deleteContact aff s env p).store = s) ∧
    (env.fault .deleteById ≠ none →
      (deleteContact aff s env p).response = ⟨500, .message "Error deleting the entry."⟩ ∧
      (deleteContact aff s env p).store = s) ∧
    (deleteContact integerLiteral Store.empty (Env.healthy env.now) "999999").response
      = ⟨404, .message "Entry not found."⟩ := by
  have h9 : (deleteContact integerLiteral Store.empty (Env.healthy env.now)
      "999999").response = ⟨404, .message "Entry not found."⟩ := rfl
  have hzero : (s.rows.filter (fun r => idMatches aff p r)).length = 0 ↔
      ∀ r ∈ s.rows, aff p ≠ some (r.id : Int) := by
    rw [List.length_eq_zero, List.filter_eq_nil_iff]
    simp [idMatches]
  have hsame : (∀ r ∈ s.rows, aff p ≠ some (r.id : Int)) →
      ({ rows := s.rows.filter (fun r => !idMatches aff p r), seq := s.seq } : Store) = s := by
    intro h
    have : s.rows.filter (fun r => !idMatches aff p r) = s.rows := by
      rw [List.filter_eq_self]
      intro r hr
      simp [idMatches, h r hr]
    rw [this]
  by_cases hf : env.fault .deleteById = none
  · rw [deleteContact_of_ok aff s env p hf]
    by_cases hz : (s.rows.filter (fun r => idMatches aff p r)).length = 0
    · rw [if_pos hz]
      refine ⟨⟨fun _ => ⟨hf, hzero.mp hz⟩, fun _ => rfl⟩, fun _ => ⟨rfl, hsame (hzero.mp hz)⟩,
        fun h => absurd hf h, h9⟩
    · rw [if_neg hz]
      refine ⟨⟨fun h => ?_, fun h => absurd (hzero.mpr h.2) hz⟩, fun h => ?_,
        fun h => absurd hf h, h9⟩
      · simp at h
      · simp at h
  · rw [deleteContact_of_fault aff s env p hf]
    refine ⟨⟨fun h => ?_, fun h => absurd h.1 hf⟩, fun h => ?_, fun _ => ⟨rfl, rfl⟩, h9⟩
    · simp at h
    · simp at h

/-- C5, as stated, fails: no entry of the empty table has id 999999, yet when
the engine fails the delete statement the reply is 500 and not 404. -/
theorem delete_missing_counterexample :
    (∀ r ∈ Store.empty.rows, integerLiteral "999999" ≠ some (r.id : Int)) ∧
    (deleteContact integerLiteral Store.empty (Env.failing 5000 .deleteById)
        "999999").response
      = ⟨500, .message "Error deleting the entry."⟩ := by
  decide

/-! ## The clear handler -/

theorem clearTable_of_ok (s : Store) (env : Env)
    (h1 : env.fault .deleteAll = none) (h2 : env.fault .resetSeq = none) :
    clearTable s env =
      { store := { rows := [], seq := none },
        response := ⟨200, .message "All entries from page_contacts cleared successfully."⟩,
        issued := [.deleteAll, .resetSeq], lastID := none } := by
  simp [clearTable, runDeleteAll, runResetSeq, h1, h2]

theorem clearTable_of_first_fault (s : Store) (env : Env)
    (h1 : env.fault .deleteAll ≠ none) :
    clearTable s env =
      { store := s, response := ⟨500, .message "Error clearing the table."⟩,
        issued := [.deleteAll], lastID := none } := by
  cases hf : env.fault .deleteAll with
  | none => exact absurd hf h1
  | some err => simp [clearTable, runDeleteAll, hf]

theorem clearTable_of_second_fault (s : Store) (env : Env)
    (h1 : env.fault .deleteAll = none) (h2 : env.fault .resetSeq ≠ none) :
    clearTable s env =
      { store := { rows := [], seq := s.seq },
        response := ⟨500, .message "Error resetting the table ID."⟩,
        issued := [.deleteAll, .resetSeq], lastID := none } := by
  cases hf : env.fault .resetSeq with
  | none => exact absurd hf h2
  | some err => simp [clearTable, runDeleteAll, runResetSeq, h1, hf]

/-- C6: from every database, the already-empty one included, a clear neither
of whose two statements fails is answered 200 "All entries from page_contacts
cleared successfully.", leaves no rows and no sequence entry, so that the next
successful submit is stored with id 1; a second such clear is answered 200 as
well and leaves the same database as the first. -/
theorem clear_empties_and_resets (s : Store) (env : Env)
    (h1 : env.fault .deleteAll = none) (h2 : env.fault .resetSeq = none) :
    (clearTable s env).response
      = ⟨200, .message "All entries from page_contacts cleared successfully."⟩ ∧
    (clearTable s env).store.rows = [] ∧
    (clearTable s env).store.seq = none ∧
    (∀ (env2 : Env) (body : Body),
      (submitForm (clearTable s env).store env2 body).response.status = 200 →
      ∃ e : ContactEntry,
        (submitForm (clearTable s env).store env2 body).store.rows = [e] ∧ e.id = 1 ∧
        (submitForm (clearTable s env).store env2 body).lastID = some 1) ∧
    (∀ env2 : Env, env2.fault .deleteAll = none → env2.fault .resetSeq = none →
      (clearTable (clearTable s env).store env2).response
        = ⟨200, .message "All entries from page_contacts cleared successfully."⟩ ∧
      (clearTable (clearTable s env).store env2).store = (clearTable s env).store) := by
  rw [clearTable_of_ok s env h1 h2]
  refine ⟨rfl, rfl, rfl, ?_, ?_⟩
  · intro env2 body hst
    rcases submitForm_cases { rows := [], seq := none } env2 body with h | h | ⟨id, hid, _, h⟩
    · rw [h] at hst; simp at hst
    · rw [h] at hst; simp at hst
    · have hid1 : id = 1 := by
        have := (newRowid_ok hid).1
        simpa [tableMax] using this
      subst hid1
      rw [h]
      exact ⟨_, rfl, rfl, rfl⟩
  · intro env2 e1 e2
    rw [clearTable_of_ok _ env2 e1 e2]
    exact ⟨rfl, rfl⟩

theorem clear_empties_and_resets_witness :
    (clearTable aliceStore (Env.healthy 7000)).response
      = ⟨200, .message "All entries from page_contacts cleared successfully."⟩ ∧
    (clearTable aliceStore (Env.healthy 7000)).store.rows = [] ∧
    (clearTable aliceStore (Env.healthy 7000)).store.seq = none ∧
    (∀ (env2 : Env) (body : Body),
      (submitForm (clearTable aliceStore (Env.healthy 7000)).store env2 body).response.status
        = 200 →
      ∃ e : ContactEntry,
        (submitForm (clearTable aliceStore (Env.healthy 7000)).store env2 body).store.rows
          = [e] ∧ e.id = 1 ∧
        (submitForm (clearTable aliceStore (Env.healthy 7000)).store env2 body).lastID
          = some 1) ∧
    (∀ env2 : Env, env2.fault .deleteAll = none → env2.fault .resetSeq = none →
      (clearTable (clearTable aliceStore (Env.healthy 7000)).store env2).response
        = ⟨200, .message "All entries from page_contacts cleared successfully."⟩ ∧
      (clearTable (clearTable aliceStore (Env.healthy 7000)).store env2).store
        = (clearTable aliceStore (Env.healthy 7000)).store) :=
  clear_empties_and_resets aliceStore (Env.healthy 7000) rfl rfl

/-- C10 (amended): clear runs two statements one after the other, with no
transaction around them.  If the first fails the reply is 500 "Error clearing
the table." and the database is unchanged; if the first succeeds and the
second fails the reply is 500 "Error resetting the table ID.", the rows are
gone and the id counter is as before; if neither fails the reply is 200 and
both rows and counter are gone.  The counter is never reset while rows
remain. -/
theorem clear_two_steps (s : Store) (env : Env) :
    (env.fault .deleteAll ≠ none →
      (clearTable s env).response = ⟨500, .message "Error clearing the table."⟩ ∧
      (clearTable s env).store = s ∧ (clearTable s env).issued = [.deleteAll]) ∧
    (env.fault .deleteAll = none → env.fault .resetSeq ≠ none →
      (clearTable s env).response = ⟨500, .message "Error resetting the table ID."⟩ ∧
      (clearTable s env).store = { rows := [], seq := s.seq } ∧
      (clearTable s env).issued = [.deleteAll, .resetSeq]) ∧
    (env.fault .deleteAll = none → env.fault .resetSeq = none →
      (clearTable s env).response
        = ⟨200, .message "All entries from page_contacts cleared successfully."⟩ ∧
      (clearTable s env).store = { rows := [], seq := none }) ∧
    ((clearTable s env).store.seq ≠ s.seq → (clearTable s env).store.rows = []) := by
  refine ⟨fun h1 => ?_, fun h1 h2 => ?_, fun h1 h2 => ?_, ?_⟩
  · rw [clearTable_of_first_fault s env h1]; exact ⟨rfl, rfl, rfl⟩
  · rw [clearTable_of_second_fault s env h1 h2]; exact ⟨rfl, rfl, rfl⟩
  · rw [clearTable_of_ok s env h1 h2]; exact ⟨rfl, rfl⟩
  · by_cases h1 : env.fault .deleteAll = none
    · by_cases h2 : env.fault .resetSeq = none
      · rw [clearTable_of_ok s env h1 h2]; intro _; rfl
      · rw [clearTable_of_second_fault s env h1 h2]; intro _; rfl
    · rw [clearTable_of_first_fault s env h1]; intro h; exact absurd rfl h

/-- C10, as stated, fails: with Alice's entry stored under id 1, a clear whose
second statement fails is answered 500 "Error resetting the table ID." and
leaves the rows cleared while the counter is not reset (the table is not
unchanged), so the next submit is stored with id 2. -/
theorem clear_half_done_counterexample :
    (clearTable aliceStore (Env.failing 7000 .resetSeq)).response
      = ⟨500, .message "Error resetting the table ID."⟩ ∧
    (clearTable aliceStore (Env.failing 7000 .resetSeq)).store = { rows := [], seq := some 1 } ∧
    (clearTable aliceStore (Env.failing 7000 .resetSeq)).store ≠ aliceStore ∧
    (submitForm (clearTable aliceStore (Env.failing 7000 .resetSeq)).store (Env.healthy 8000)
        aliceBody).lastID = some 2 := by
  decide

/-! ## Submitting twice -/

/-- C8 (amended): when the same submit is performed twice in succession and
both inserts succeed, two rows are appended, the second with a larger id than
the first, each carrying the submitted fields and the instant its own request
read from the clock; the two timestamps differ exactly when the two clock
readings differ, and are equal when both requests fall in the same
millisecond. -/
theorem submit_twice_two_entries (s : Store) (env1 env2 : Env) (body : Body)
    (h1 : (submitForm s env1 body).response.status = 200)
    (h2 : (submitForm (submitForm s env1 body).store env2 body).response.status = 200) :
    ∃ e1 e2 : ContactEntry,
      (submitForm (submitForm s env1 body).store env2 body).store.rows
        = s.rows ++ [e1, e2] ∧
      e1.id < e2.id ∧ e1 ≠ e2 ∧
      (∀ r ∈ s.rows, r.id < e1.id) ∧
      e1.name = body.fullName ∧ e2.name = body.fullName ∧
      e1.email = body.email ∧ e2.email = body.email ∧
      e1.subject = body.subject ∧ e2.subject = body.subject ∧
      e1.message = body.message ∧ e2.message = body.message ∧
      e1.submitted_at = env1.now ∧ e2.submitted_at = env2.now ∧
      (e1.submitted_at ≠ e2.submitted_at ↔ env1.now ≠ env2.now) := by
  rcases submitForm_cases s env1 body with h | h | ⟨id1, hid1, _, h⟩
  · rw [h] at h1; simp at h1
  · rw [h] at h1; simp at h1
  · rw [h] at h2 ⊢
    rcases submitForm_cases _ env2 body with g | g | ⟨id2, hid2, _, g⟩
    · rw [g] at h2; simp at h2
    · rw [g] at h2; simp at h2
    · rw [g]
      have hlt : id1 < id2 := by
        have := (newRowid_ok hid2).2.1
        simpa using this
      refine ⟨⟨id1, body.fullName, body.email, body.subject, body.message, env1.now⟩,
        ⟨id2, body.fullName, body.email, body.subject, body.message, env2.now⟩,
        by simp, hlt, ?_, fun r hr => newRowid_fresh hid1 hr,
        rfl, rfl, rfl, rfl, rfl, rfl, rfl, rfl, rfl, rfl, Iff.rfl⟩
      intro he
      have : id1 = id2 := congrArg ContactEntry.id he
      omega

theorem submit_twice_two_entries_witness :
    ∃ e1 e2 : ContactEntry,
      (submitForm (submitForm aliceStore (Env.healthy 2000) aliceBody).store
          (Env.healthy 2001) aliceBody).store.rows = aliceStore.rows ++ [e1, e2] ∧
      e1.id < e2.id ∧ e1 ≠ e2 ∧
      (∀ r ∈ aliceStore.rows, r.id < e1.id) ∧
      e1.name = aliceBody.fullName ∧ e2.name = aliceBody.fullName ∧
      e1.email = aliceBody.email ∧ e2.email = aliceBody.email ∧
      e1.subject = aliceBody.subject ∧ e2.subject = aliceBody.subject ∧
      e1.message = aliceBody.message ∧ e2.message = aliceBody.message ∧
      e1.submitted_at = (Env.healthy 2000).now ∧ e2.submitted_at = (Env.healthy 2001).now ∧
      (e1.submitted_at ≠ e2.submitted_at ↔ (Env.healthy 2000).now ≠ (Env.healthy 2001).now) :=
  submit_twice_two_entries aliceStore (Env.healthy 2000) (Env.healthy 2001) aliceBody
    (by decide) (by decide)

/-- C8, as stated, fails: the same valid submit performed twice within one
millisecond succeeds both times and stores two rows (ids 1 and 2) with the
same submitted_at. -/
theorem submit_twice_same_timestamp_counterexample :
    (submitForm Store.empty (Env.healthy 1000) aliceBody).response.status = 200 ∧
    (submitForm (submitForm Store.empty (Env.healthy 1000) aliceBody).store
        (Env.healthy 1000) aliceBody).response.status = 200 ∧
    (submitForm (submitForm Store.empty (Env.healthy 1000) aliceBody).store
        (Env.healthy 1000) aliceBody).store.rows
      = [{ aliceRow with id := 1, submitted_at := 1000 },
         { aliceRow with id := 2, submitted_at := 1000 }] := by
  decide

/-! ## Sequences of requests: identity and ordering invariants -/

/-- One request either only drops rows (and assigns no id), or appends one row
under the rowid the engine picked, stamped with the request's clock reading. -/
theorem handle_cases (aff : String → Option Int) (s : Store) (env : Env) (r : Request) :
    ((handle aff s env r).store.rows.Sublist s.rows ∧ (handle aff s env r).lastID = none ∧
      (r ≠ Request.clearTable → (handle aff s env r).store.seq = s.seq)) ∨
    (∃ e : ContactEntry, newRowid s = .ok e.id ∧ e.submitted_at = env.now ∧
      (handle aff s env r).store.rows = s.rows ++ [e] ∧
      (handle aff s env r).store.seq = some e.id ∧
      (handle aff s env r).lastID = some e.id) := by
  cases r with
  | submit body =>
    simp only [handle]
    rcases submitForm_cases s env body with h | h | ⟨id, hid, _, h⟩
    · rw [h]; exact Or.inl ⟨List.Sublist.refl _, rfl, fun _ => rfl⟩
    · rw [h]; exact Or.inl ⟨List.Sublist.refl _, rfl, fun _ => rfl⟩
    · rw [h]
      exact Or.inr ⟨⟨id, body.fullName, body.email, body.subject, body.message, env.now⟩,
        hid, rfl, rfl, rfl, rfl⟩
  | getContacts =>
    simp only [handle]
    by_cases hf : env.fault .selectAll = none
    · rw [getContacts_of_ok s env hf]; exact Or.inl ⟨List.Sublist.refl _, rfl, fun _ => rfl⟩
    · rw [getContacts_of_fault s env hf]; exact Or.inl ⟨List.Sublist.refl _, rfl, fun _ => rfl⟩
  | deleteContact p =>
    simp only [handle]
    by_cases hf : env.fault .deleteById = none
    · rw [deleteContact_of_ok aff s env p hf]
      exact Or.inl ⟨List.filter_sublist _, rfl, fun _ => rfl⟩
    · rw [deleteContact_of_fault aff s env p hf]
      exact Or.inl ⟨List.Sublist.refl _, rfl, fun _ => rfl⟩
  | clearTable =>
    simp only [handle]
    by_cases h1 : env.fault .deleteAll = none
    · by_cases h2 : env.fault .resetSeq = none
      · rw [clearTable_of_ok s env h1 h2]
        exact Or.inl ⟨List.nil_sublist _, rfl, fun h => absurd rfl h⟩
      · rw [clearTable_of_second_fault s env h1 h2]
        exact Or.inl ⟨List.nil_sublist _, rfl, fun h => absurd rfl h⟩
    · rw [clearTable_of_first_fault s env h1]
      exact Or.inl ⟨List.Sublist.refl _, rfl, fun h => absurd rfl h⟩

theorem handle_seq_mono (aff : String → Option Int) (s : Store) (env : Env) (r : Request)
    (hr : r ≠ Request.clearTable) :
    s.seq.getD 0 ≤ (handle aff s env r).store.seq.getD 0 := by
  rcases handle_cases aff s env r with ⟨_, _, h⟩ | ⟨e, hid, _, _, hseq, _⟩
  · rw [h hr]
  · rw [hseq]
    exact Nat.le_of_lt (newRowid_ok hid).2.1

theorem handle_lastID (aff : String → Option Int) (s : Store) (env : Env) (r : Request)
    {i : Nat} (hi : (handle aff s env r).lastID = some i) :
    s.seq.getD 0 < i ∧ (handle aff s env r).store.seq = some i := by
  rcases handle_cases aff s env r with ⟨_, h, _⟩ | ⟨e, hid, _, _, hseq, hl⟩
  · rw [h] at hi; cases hi
  · rw [hl] at hi
    injection hi with hi
    subst hi
    exact ⟨(newRowid_ok hid).2.1, hseq⟩

theorem handle_nodup (aff : String → Option Int) (s : Store) (env : Env) (r : Request)
    (hnd : s.ids.Nodup) : (handle aff s env r).store.ids.Nodup := by
  rcases handle_cases aff s env r with ⟨hsub, _, _⟩ | ⟨e, hid, _, hrows, _, _⟩
  · exact List.Nodup.sublist (hsub.map _) hnd
  · unfold Store.ids at hnd ⊢
    rw [hrows, List.map_append, List.nodup_append]
    refine ⟨hnd, by simp, ?_⟩
    intro a ha hb
    obtain ⟨x, hx, rfl⟩ := List.mem_map.mp ha
    have hlt := newRowid_fresh hid hx
    simp at hb
    omega

theorem run_seq_mono (aff : String → Option Int) (s : Store) (tr : List (Env × Request))
    (hnc : ∀ x ∈ tr, x.2 ≠ Request.clearTable) :
    s.seq.getD 0 ≤ (run aff s tr).seq.getD 0 := by
  induction tr generalizing s with
  | nil => exact Nat.le_refl _
  | cons x rest ih =>
    simp only [run]
    exact Nat.le_trans (handle_seq_mono aff s x.1 x.2 (hnc x (List.mem_cons_self _ _)))
      (ih _ (fun y hy => hnc y (List.mem_cons_of_mem _ hy)))

theorem assigned_gt_seq (aff : String → Option Int) (s : Store) (tr : List (Env × Request))
    (hnc : ∀ x ∈ tr, x.2 ≠ Request.clearTable) :
    ∀ i ∈ assigned aff s tr, s.seq.getD 0 < i := by
  induction tr generalizing s with
  | nil => intro i hi; cases hi
  | cons x rest ih =>
    intro i hi
    simp only [assigned, List.mem_append, Option.mem_toList, Option.mem_def] at hi
    rcases hi with hi | hi
    · exact (handle_lastID aff s x.1 x.2 hi).1
    · exact Nat.lt_of_le_of_lt
        (handle_seq_mono aff s x.1 x.2 (hnc x (List.mem_cons_self _ _)))
        (ih _ (fun y hy => hnc y (List.mem_cons_of_mem _ hy)) i hi)

theorem assigned_le_run_seq (aff : String → Option Int) (s : Store)
    (tr : List (Env × Request)) (hnc : ∀ x ∈ tr, x.2 ≠ Request.clearTable) :
    ∀ i ∈ assigned aff s tr, i ≤ (run aff s tr).seq.getD 0 := by
  induction tr generalizing s with
  | nil => intro i hi; cases hi
  | cons x rest ih =>
    have hrest : ∀ y ∈ rest, y.2 ≠ Request.clearTable :=
      fun y hy => hnc y (List.mem_cons_of_mem _ hy)
    intro i hi
    simp only [assigned, List.mem_append, Option.mem_toList, Option.mem_def] at hi
    simp only [run]
    rcases hi with hi | hi
    · have h := run_seq_mono aff (handle aff s x.1 x.2).store rest hrest
      rw [(handle_lastID aff s x.1 x.2 hi).2] at h
      simpa using h
    · exact ih _ hrest i hi

theorem assigned_pairwise (aff : String → Option Int) (s : Store)
    (tr : List (Env × Request)) (hnc : ∀ x ∈ tr, x.2 ≠ Request.clearTable) :
    (assigned aff s tr).Pairwise (fun i j => i < j) := by
  induction tr generalizing s with
  | nil => exact List.Pairwise.nil
  | cons x rest ih =>
    have hrest : ∀ y ∈ rest, y.2 ≠ Request.clearTable :=
      fun y hy => hnc y (List.mem_cons_of_mem _ hy)
    simp only [assigned]
    rw [List.pairwise_append]
    refine ⟨?_, ih _ hrest, ?_⟩
    · cases (handle aff s x.1 x.2).lastID <;> simp
    · intro i hi j hj
      simp only [Option.mem_toList, Option.mem_def] at hi
      have h := assigned_gt_seq aff (handle aff s x.1 x.2).store rest hrest j hj
      rw [(handle_lastID aff s x.1 x.2 hi).2] at h
      simpa using h

theorem run_nodup (aff : String → Option Int) (s : Store) (tr : List (Env × Request))
    (hnd : s.ids.Nodup) : (run aff s tr).ids.Nodup := by
  induction tr generalizing s with
  | nil => exact hnd
  | cons x rest ih => exact ih _ (handle_nodup aff s x.1 x.2 hnd)

/-- C7: in a sequence of submits, lists and deletes by id with no clear,
started from a table whose ids are pairwise distinct, every successful submit
appends its entry under an id strictly greater than every id handed out
earlier in the sequence (whether or not that entry has since been deleted) and
greater than every id then in the table; the ids handed out are strictly
increasing, and in the resulting table no two entries share an id. -/
theorem ids_never_reused (aff : String → Option Int) (s : Store)
    (tr : List (Env × Request))
    (hnc : ∀ x ∈ tr, x.2 ≠ Request.clearTable) (hnd : s.ids.Nodup) :
    (∀ (pre post : List (Env × Request)) (env : Env) (body : Body),
      tr = pre ++ (env, Request.submit body) :: post →
      (submitForm (run aff s pre) env body).response.status = 200 →
      ∃ e : ContactEntry,
        (submitForm (run aff s pre) env body).store.rows = (run aff s pre).rows ++ [e] ∧
        (submitForm (run aff s pre) env body).lastID = some e.id ∧
        (∀ i ∈ assigned aff s pre, i < e.id) ∧
        (∀ r ∈ (run aff s pre).rows, r.id < e.id)) ∧
    (assigned aff s tr).Pairwise (fun i j => i < j) ∧
    (run aff s tr).ids.Nodup := by
  refine ⟨?_, assigned_pairwise aff s tr hnc, run_nodup aff s tr hnd⟩
  intro pre post env body htr hst
  have hpre : ∀ x ∈ pre, x.2 ≠ Request.clearTable := by
    intro x hx
    apply hnc
    rw [htr]
    exact List.mem_append_left _ hx
  rcases submitForm_cases (run aff s pre) env body with h | h | ⟨id, hid, _, h⟩
  · rw [h] at hst; simp at hst
  · rw [h] at hst; simp at hst
  · rw [h]
    refine ⟨⟨id, body.fullName, body.email, body.subject, body.message, env.now⟩,
      rfl, rfl, ?_, fun r hr => newRowid_fresh hid hr⟩
    intro i hi
    exact Nat.lt_of_le_of_lt (assigned_le_run_seq aff s pre hpre i hi) (newRowid_ok hid).2.1

theorem ids_never_reused_witness :
    (∀ x ∈ sampleTrace, x.2 ≠ Request.clearTable) ∧ Store.empty.ids.Nodup ∧
    ((∀ (pre post : List (Env × Request)) (env : Env) (body : Body),
      sampleTrace = pre ++ (env, Request.submit body) :: post →
      (submitForm (run integerLiteral Store.empty pre) env body).response.status = 200 →
      ∃ e : ContactEntry,
        (submitForm (run integerLiteral Store.empty pre) env body).store.rows
          = (run integerLiteral Store.empty pre).rows ++ [e] ∧
        (submitForm (run integerLiteral Store.empty pre) env body).lastID = some e.id ∧
        (∀ i ∈ assigned integerLiteral Store.empty pre, i < e.id) ∧
        (∀ r ∈ (run integerLiteral Store.empty pre).rows, r.id < e.id)) ∧
    (assigned integerLiteral Store.empty sampleTrace).Pairwise (fun i j => i < j) ∧
    (run integerLiteral Store.empty sampleTrace).ids.Nodup) ∧
    assigned integerLiteral Store.empty sampleTrace = [1, 2] ∧
    (run integerLiteral Store.empty sampleTrace).ids = [2] :=
  ⟨by decide, by decide,
    ids_never_reused integerLiteral Store.empty sampleTrace (by decide) (by decide),
    by decide, by decide⟩

theorem pairwise_rowOrder_mem {l : List ContactEntry} (h : l.Pairwise RowOrder)
    {a b : ContactEntry} (ha : a ∈ l) (hb : b ∈ l) :
    a = b ∨ RowOrder a b ∨ RowOrder b a := by
  induction l with
  | nil => cases ha
  | cons x l ih =>
    rw [List.pairwise_cons] at h
    rcases List.mem_cons.mp ha with rfl | ha' <;> rcases List.mem_cons.mp hb with rfl | hb'
    · exact Or.inl rfl
    · exact Or.inr (Or.inl (h.1 b hb'))
    · exact Or.inr (Or.inr (h.1 a ha'))
    · exact ih h.2 ha' hb'

theorem run_rowOrder (aff : String → Option Int) (s : Store) (tr : List (Env × Request))
    (hs : s.rows.Pairwise RowOrder)
    (hclock : (tr.map (fun x => x.1.now)).Pairwise (fun t u => t ≤ u))
    (hpast : ∀ r ∈ s.rows, ∀ x ∈ tr, r.submitted_at ≤ x.1.now) :
    (run aff s tr).rows.Pairwise RowOrder := by
  induction tr generalizing s with
  | nil => exact hs
  | cons x rest ih =>
    rw [List.map_cons, List.pairwise_cons] at hclock
    simp only [run]
    rcases handle_cases aff s x.1 x.2 with ⟨hsub, _, _⟩ | ⟨e, hid, hstamp, hrows, _, _⟩
    · refine ih _ (hs.sublist hsub) hclock.2 ?_
      intro r hr y hy
      exact hpast r (hsub.subset hr) y (List.mem_cons_of_mem _ hy)
    · refine ih _ ?_ hclock.2 ?_
      · rw [hrows, List.pairwise_append]
        refine ⟨hs, List.pairwise_singleton _ _, ?_⟩
        intro a ha b hb
        rw [List.mem_singleton] at hb
        subst hb
        refine ⟨newRowid_fresh hid ha, ?_⟩
        rw [hstamp]
        exact hpast a ha x (List.mem_cons_self _ _)
      · intro r hr y hy
        rw [hrows, List.mem_append, List.mem_singleton] at hr
        rcases hr with hr | rfl
        · exact hpast r hr y (List.mem_cons_of_mem _ hy)
        · rw [hstamp]
          exact hclock.1 _ (List.mem_map_of_mem (fun x => x.1.now) hy)

/-- C9: in every database reached from the empty table by submits, lists,
deletes by id and clears (whatever statements fail), with the clock readings
of successive requests non-decreasing, submitted_at is non-decreasing with id:
for surviving entries a and b, a.id < b.id implies a.submitted_at ≤
b.submitted_at. -/
theorem submitted_at_monotone_in_id (aff : String → Option Int)
    (tr : List (Env × Request))
    (hclock : (tr.map (fun x => x.1.now)).Pairwise (fun t u => t ≤ u)) :
    ∀ a ∈ (run aff Store.empty tr).rows, ∀ b ∈ (run aff Store.empty tr).rows,
      a.id < b.id → a.submitted_at ≤ b.submitted_at := by
  have hord := run_rowOrder aff Store.empty tr List.Pairwise.nil hclock
    (fun r hr => by cases hr)
  intro a ha b hb hlt
  rcases pairwise_rowOrder_mem hord ha hb with rfl | h | h
  · exact Nat.le_refl _
  · exact h.2
  · exact absurd h.1 (Nat.lt_asymm hlt)

theorem submitted_at_monotone_in_id_witness :
    (sampleTraceWithClear.map (fun x => x.1.now)).Pairwise (fun t u => t ≤ u) ∧
    (∀ a ∈ (run integerLiteral Store.empty sampleTraceWithClear).rows,
      ∀ b ∈ (run integerLiteral Store.empty sampleTraceWithClear).rows,
        a.id < b.id → a.submitted_at ≤ b.submitted_at) ∧
    (run integerLiteral Store.empty sampleTraceWithClear).rows
      = [{ aliceRow with id := 3, submitted_at := 2000 },
         { aliceRow with id := 4, submitted_at := 2000 }] :=
  ⟨by decide,
    submitted_at_monotone_in_id integerLiteral sampleTraceWithClear (by decide),
    by decide⟩

end Bonton
